import Mathlib

/-!
Verification of the manifest-validation engine and seed-import pipeline of the
registry repository.  Go code from `internal/validators/validators.go`,
`internal/importer/importer.go` and `pkg/model/schema_support.go` is shallowly
embedded as executable Lean definitions; machine-level concerns (HTTP, files,
logging) are abstracted as explicit oracle parameters.  Helpers from the Go
standard library (`strings`, `net/url`, `encoding/json`) are modelled for the
fragment this code exercises.
-/

deriving instance DecidableEq for Except

namespace Registry

/-! ## String and character utilities (models of Go `strings` helpers) -/

/-- Character class of the RE2 `\s` escape: `[\t\n\f\r ]`. -/
def goWS (c : Char) : Bool :=
  c = ' ' || c = '\t' || c = '\n' || c = Char.ofNat 12 || c = '\r'

/-- ASCII fragment of `unicode.IsSpace`, used by `strings.TrimSpace`. -/
def goTrimWS (c : Char) : Bool :=
  c = ' ' || c = '\t' || c = '\n' || c = Char.ofNat 11 || c = Char.ofNat 12 || c = '\r'

/-- Model of `strings.TrimSpace` (ASCII fragment), on character lists. -/
def trimSpaceL (l : List Char) : List Char :=
  ((l.dropWhile goTrimWS).reverse.dropWhile goTrimWS).reverse

/-- `needle` occurs at the start of `hay` (model of `strings.HasPrefix`). -/
def strLeads : List Char → List Char → Bool
  | [], _ => true
  | _ :: _, [] => false
  | a :: as, b :: bs => a = b && strLeads as bs

/-- `needle` occurs somewhere inside `hay` (model of `strings.Contains`). -/
def lSub (needle : List Char) (hay : List Char) : Bool :=
  if strLeads needle hay then true
  else
    match hay with
    | [] => false
    | _ :: t => lSub needle t

/-- Model of `strings.Contains s sub`. -/
def strContainsSub (s sub : String) : Bool := lSub sub.data s.data

/-- Model of `strings.HasPrefix s pre`. -/
def strStarts (s pre : String) : Bool := strLeads pre.data s.data

/-- `needle` occurs at the end of `hay` (model of `strings.HasSuffix`). -/
def strEnds (s suf : String) : Bool := strLeads suf.data.reverse s.data.reverse

/-- Model of `strings.Count s "/"` restricted to one-character separators. -/
def countChar (c : Char) (l : List Char) : Nat :=
  l.foldl (fun n a => if a = c then n + 1 else n) 0

/-- Split at the first occurrence of `c`: returns the parts before and after. -/
def splitAtFirst (c : Char) : List Char → Option (List Char × List Char)
  | [] => none
  | a :: as =>
    if a = c then some ([], as)
    else
      match splitAtFirst c as with
      | none => none
      | some (b, r) => some (a :: b, r)

/-- Split on every occurrence of `c` (model of `strings.Split` with a
one-character separator; always returns at least one part). -/
def splitOnChar (c : Char) (l : List Char) : List (List Char) :=
  go l []
where
  go : List Char → List Char → List (List Char)
    | [], acc => [acc.reverse]
    | a :: as, acc => if a = c then acc.reverse :: go as [] else go as (a :: acc)

/-- Model of `strings.Join parts "."` with a one-character separator. -/
def joinWithChar (c : Char) : List (List Char) → List Char
  | [] => []
  | [p] => p
  | p :: ps => p ++ c :: joinWithChar c ps

/-! ## Model of Go `net/url` for the fragment this code exercises

`url.Parse` is modelled for absolute `scheme://host/...` URLs and scheme-less
strings.  The model keeps the two components the validators read: the scheme
(lower-cased, empty when the URL is not absolute) and the raw
`host[:port]` authority component.  Percent-escapes, IPv6 bracket hosts and
userinfo escaping rules are outside the fragment the validators exercise;
control characters, an empty scheme before `:`, an invalid port, and
whitespace in the host are rejected as `net/url` does. -/

structure GoURL where
  scheme : String
  host : String
  deriving Repr, DecidableEq

def isSchemeChar (c : Char) : Bool :=
  c.isAlpha || c.isDigit || c = '+' || c = '-' || c = '.'

/-- Model of `net/url`'s `getscheme`: returns `some (scheme, rest)` where the
scheme is empty when the string carries none, `none` on a malformed scheme. -/
def getScheme (l : List Char) : Option (List Char × List Char) :=
  match l with
  | [] => some ([], [])
  | c :: _ =>
    if ¬ c.isAlpha then (if c = ':' then none else some ([], l))
    else getSchemeLoop l []
where
  getSchemeLoop : List Char → List Char → Option (List Char × List Char)
    | [], _ => some ([], [])  -- ran out without ':': no scheme, rest is input
    | c :: r, acc =>
      if c = ':' then some (acc.reverse, r)
      else if isSchemeChar c then getSchemeLoop r (c :: acc)
      else some ([], [])  -- marker: no scheme (rest recomputed by caller)

/-- Take the authority component: everything up to the first `/`, `?` or `#`. -/
def takeAuthority (l : List Char) : List Char × List Char :=
  let stop := fun c => c = '/' || c = '?' || c = '#'
  (l.takeWhile (fun c => ¬ stop c), l.dropWhile (fun c => ¬ stop c))

/-- Drop `userinfo@` from an authority: keep everything after the last `@`. -/
def dropUserinfo (l : List Char) : List Char :=
  match splitAtFirst '@' l.reverse with
  | none => l
  | some (b, _) => b.reverse

/-- Valid optional port: no colon at all, or all digits after the last colon. -/
def validOptionalPort (host : List Char) : Bool :=
  match splitAtFirst ':' host.reverse with
  | none => true
  | some (revPort, _) => revPort.all Char.isDigit

/-- Model of `url.Parse` for the validators' fragment. -/
def urlParse (s : String) : Option GoURL :=
  let l := s.data
  if l.any (fun c => c.toNat < 0x20 || c.toNat = 0x7f) then none
  else
    match getScheme l with
    | none => none
    | some (sch, restAfter) =>
      let scheme := String.mk (sch.map Char.toLower)
      let rest := if sch.isEmpty then l else restAfter
      match rest with
      | '/' :: '/' :: r =>
        let (auth, _) := takeAuthority r
        let host := dropUserinfo auth
        if host.any goTrimWS then none
        else if ¬ validOptionalPort host then none
        else some { scheme := scheme, host := String.mk host }
      | _ => some { scheme := scheme, host := "" }

/-- Model of `URL.Hostname()`: strip the `:port` suffix, if any. -/
def GoURL.hostname (u : GoURL) : String :=
  match splitAtFirst ':' u.host.data.reverse with
  | none => u.host
  | some (_, revHost) => String.mk revHost.reverse

/-- Model of `URL.IsAbs()`. -/
def GoURL.isAbs (u : GoURL) : Bool := u.scheme ≠ ""

/-! ## Version-range recognizers

Hand-compiled recognizers for the four anchored RE2 patterns of
`validators.go` (`comparatorRangeRe`, `hyphenRangeRe`, `orRangeRe`,
`dottedVersionLikeRe`).  Each character class involved excludes the characters
that delimit the next token, so the greedy left-to-right strategy used here
recognizes exactly the same strings as the regexes. -/

/-- `\s*` -/
def dropWSL (l : List Char) : List Char := l.dropWhile goWS

/-- `\s` (exactly one whitespace character). -/
def expectWS : List Char → Option (List Char)
  | [] => none
  | c :: r => if goWS c then some r else none

/-- `\d+` -/
def chompDigits (l : List Char) : Option (List Char) :=
  match l with
  | [] => none
  | c :: r => if c.isDigit then some (r.dropWhile Char.isDigit) else none

/-- `(?:\.\d+){0,n}`, greedy. -/
def chompDotDigits : Nat → List Char → List Char
  | 0, l => l
  | n + 1, l =>
    match l with
    | '.' :: r =>
      match chompDigits r with
      | some r2 => chompDotDigits n r2
      | none => l
    | _ => l

/-- `v?` -/
def chompV : List Char → List Char
  | 'v' :: r => r
  | l => l

/-- `v?\d+(?:\.\d+){0,3}` -/
def chompVer (l : List Char) : Option (List Char) :=
  (chompDigits (chompV l)).map (chompDotDigits 3)

/-- Character class `[0-9A-Za-z.-]` of the pre-release part. -/
def isPreChar (c : Char) : Bool :=
  c.isDigit || c.isAlpha || c = '.' || c = '-'

/-- `(?:-[0-9A-Za-z.-]+)?`, greedy. -/
def chompPre (l : List Char) : List Char :=
  match l with
  | '-' :: r =>
    match r with
    | c :: _ => if isPreChar c then r.dropWhile isPreChar else l
    | [] => l
  | _ => l

/-- `(?:\^|~|>=|<=|>|<|=)` -/
def chompComparator (l : List Char) : Option (List Char) :=
  match l with
  | [] => none
  | c :: r =>
    if c = '^' then some r
    else if c = '~' then some r
    else if c = '>' ∨ c = '<' then
      match r with
      | c2 :: r2 => if c2 = '=' then some r2 else some r
      | [] => some r
    else if c = '=' then some r
    else none

/-- Recognizer for `comparatorRangeRe`. -/
def comparatorRangeMatch (l : List Char) : Bool :=
  match chompComparator (dropWSL l) with
  | none => false
  | some r =>
    match chompVer (dropWSL r) with
    | none => false
    | some r2 => (dropWSL (chompPre r2)).isEmpty

/-- Recognizer for `hyphenRangeRe`. -/
def hyphenRangeMatch (l : List Char) : Bool :=
  match chompVer (dropWSL l) with
  | none => false
  | some r =>
    match expectWS (chompPre r) with
    | none => false
    | some r2 =>
      match r2 with
      | '-' :: r3 =>
        match chompVer (dropWSL r3) with
        | none => false
        | some r4 => (dropWSL (chompPre r4)).isEmpty
      | _ => false

/-- One `\|\|\s*ver(?:-pre)?\s*` group of `orRangeRe`. -/
def orGroup (l : List Char) : Option (List Char) :=
  match l with
  | '|' :: '|' :: r => (chompVer (dropWSL r)).map (fun r2 => dropWSL (chompPre r2))
  | _ => none

/-- `(\|\|\s*ver(?:-pre)?\s*)+$` with fuel (each group consumes ≥ 2 chars). -/
def orMore : Nat → List Char → Bool
  | 0, _ => false
  | fuel + 1, l =>
    match orGroup l with
    | none => false
    | some r => r.isEmpty || orMore fuel r

/-- Recognizer for `orRangeRe`. -/
def orRangeMatch (l : List Char) : Bool :=
  match chompVer (dropWSL l) with
  | none => false
  | some r => orMore (l.length + 1) (dropWSL (chompPre r))

/-- First segment `(?:v?\d+|x|X|\*)` of `dottedVersionLikeRe`. -/
def chompSegFirst (l : List Char) : Option (List Char) :=
  match l with
  | [] => none
  | c :: r =>
    if c = 'x' || c = 'X' || c = '*' then some r
    else if c = 'v' then chompDigits r
    else chompDigits l

/-- Later segment `(?:\d+|x|X|\*)` of `dottedVersionLikeRe`. -/
def chompSeg (l : List Char) : Option (List Char) :=
  match l with
  | [] => none
  | c :: _ =>
    if c = 'x' || c = 'X' || c = '*' then some l.tail
    else chompDigits l

/-- Recognizer for `dottedVersionLikeRe`
(`^\s*seg1(?:\.seg){1,2}(?:-pre)?\s*$`). -/
def dottedVersionLikeMatch (l : List Char) : Bool :=
  match chompSegFirst (dropWSL l) with
  | none => false
  | some r =>
    match r with
    | '.' :: r1 =>
      match chompSeg r1 with
      | none => false
      | some r2 =>
        let r3 :=
          match r2 with
          | '.' :: rr =>
            match chompSeg rr with
            | some r4 => r4
            | none => r2
          | _ => r2
        (dropWSL (chompPre r3)).isEmpty
    | _ => false

/-! ## JSON values and serialization (model of `encoding/json.Marshal`)

The `_meta` publisher extension blob is an arbitrary JSON value; `Marshal` is
modelled as the standard compact rendering (string escaping is modelled for
the quote and backslash only — the blobs the size gate measures are ordinary
text). -/

inductive Json where
  | null : Json
  | bool (b : Bool) : Json
  | num (n : Int) : Json
  | str (s : String) : Json
  | arr (xs : List Json) : Json
  | obj (fields : List (String × Json)) : Json
  deriving Repr

def escapeJsonChar (c : Char) : List Char :=
  if c = '"' || c = '\\' then ['\\', c] else [c]

def escapeJsonString (s : String) : String :=
  String.mk ('"' :: (s.data.flatMap escapeJsonChar) ++ ['"'])

mutual

def Json.serialize : Json → String
  | .null => "null"
  | .bool true => "true"
  | .bool false => "false"
  | .num n => toString n
  | .str s => escapeJsonString s
  | .arr xs => "[" ++ serializeElems xs ++ "]"
  | .obj fs => String.mk ['\x7b'] ++ serializeFields fs ++ String.mk ['\x7d']

def serializeElems : List Json → String
  | [] => ""
  | [x] => x.serialize
  | x :: (y :: ys) => x.serialize ++ "," ++ serializeElems (y :: ys)

def serializeFields : List (String × Json) → String
  | [] => ""
  | [(k, v)] => escapeJsonString k ++ ":" ++ v.serialize
  | (k, v) :: (f :: fs) =>
    escapeJsonString k ++ ":" ++ v.serialize ++ "," ++ serializeFields (f :: fs)

end

/-- Byte length of the UTF-8 encoding of a string (Go `len` on `[]byte`). -/
def utf8Len (s : String) : Nat :=
  s.data.foldl (fun n c => n + c.utf8Size) 0

/-! ## Data model (`apiv0.ServerJSON` and `pkg/model` types)

Optional Go pointer fields become `Option`; optional string fields are `""`
when absent, as in Go.  Go string-typed enumeration constants
(`model.TransportTypeStdio` etc.) stay strings. -/

structure Icon where
  src : String
  deriving Repr, DecidableEq

structure Repository where
  url : String
  source : String
  subfolder : String
  deriving Repr, DecidableEq

structure EnvVar where
  name : String
  deriving Repr, DecidableEq

def argumentTypeNamed : String := "named"
def argumentTypePositional : String := "positional"

structure Argument where
  type : String
  name : String
  value : String
  default : String
  valueHint : String
  deriving Repr, DecidableEq

def transportTypeStdio : String := "stdio"
def transportTypeStreamableHTTP : String := "streamable-http"
def transportTypeSSE : String := "sse"

structure Transport where
  type : String
  url : String
  deriving Repr, DecidableEq

structure Package where
  identifier : String
  version : String
  runtimeArguments : List Argument
  packageArguments : List Argument
  environmentVariables : List EnvVar
  transport : Transport
  deriving Repr

/-- `ServerJSON._meta`: only the publisher-provided blob is carried. -/
structure ServerMeta where
  publisherProvided : Option Json
  deriving Repr

structure ServerJSON where
  schema : String
  name : String
  version : String
  title : String
  websiteUrl : String
  repository : Option Repository
  icons : List Icon
  packages : List Package
  remotes : List Transport
  meta : Option ServerMeta
  deriving Repr

/-! ## Error model

One constructor per `return`-an-error site of the embedded Go code.  Sites
that wrap a package-level sentinel error with `%w` are mapped to that sentinel
by `sentinelOf`; sites built with a plain `fmt.Errorf` carry no sentinel. -/

inductive ErrSentinel where
  | invalidRemoteURL
  | reservedVersionString
  | versionLooksLikeRange
  | multipleSlashesInServerName
  | invalidServerNameFormat
  | packageNameHasSpaces
  | namedArgumentNameRequired
  | invalidNamedArgumentName
  | argumentValueStartsWithName
  | argumentDefaultStartsWithName
  | invalidRepositoryURL
  | invalidSubfolderPath
  deriving Repr, DecidableEq

set_option maxHeartbeats 1600000 in
inductive ValidationError where
  | schemaMissing
  | schemaUnsupported (schema : String)
  | nameRequired
  | nameMissingSlash
  | nameMultipleSlashes
  | nameEmptyParts
  | invalidNamespaceName (ns : String)
  | invalidNamePartName (n : String)
  | invalidNameFormat (name : String)
  | reservedVersion
  | versionLooksLikeRange (version : String)
  | invalidRepositoryURL (url : String)
  | invalidSubfolderPath (subfolder : String)
  | websiteURLParseError (url : String)
  | websiteURLNotAbsolute (url : String)
  | websiteURLNotHTTPS (url : String)
  | titleOnlyWhitespace
  | iconAtIndex (i : Nat) (e : ValidationError)
  | iconParseError (src : String)
  | iconNotAbsolute (src : String)
  | iconNotHTTPS (scheme : String) (src : String)
  | packageNameHasSpaces
  | invalidRuntimeArgument (e : ValidationError)
  | invalidPackageArgument (e : ValidationError)
  | namedArgumentNameRequired
  | invalidNamedArgumentName (name : String)
  | argumentValueStartsWithName (name : String) (value : String)
  | argumentDefaultStartsWithName (name : String) (defaultValue : String)
  | invalidTransport (e : ValidationError)
  | transportURLMustBeEmpty (ttype : String) (url : String)
  | transportURLRequired (ttype : String)
  | transportUndefinedTemplateVars (url : String) (availableVariables : List String)
  | transportInvalidURL (url : String)
  | unsupportedTransportType (ttype : String)
  | unsupportedRemoteTransportType (ttype : String)
  | remoteInvalidURL (url : String)
  | remoteNamespaceWrap (url : String) (ns : String) (e : ValidationError)
  | websiteNamespaceWrap (url : String) (ns : String) (e : ValidationError)
  | urlParseError (url : String)
  | urlNoHostname
  | invalidNamespaceFormat (ns : String)
  | namespaceMismatch (hostname : String) (publisherDomain : String)
  | extensionTooLarge (bytes : Nat)
  | registryValidationFailed (i : Nat) (identifier : String) (e : ValidationError)
  deriving Repr, DecidableEq

/-- Which package-level sentinel (`Err…` variable) each error site wraps with
`%w`; `none` for sites built with a plain `fmt.Errorf`. -/
def sentinelOf : ValidationError → Option ErrSentinel
  | .nameMultipleSlashes => some .multipleSlashesInServerName
  | .invalidNamespaceName _ => some .invalidServerNameFormat
  | .invalidNamePartName _ => some .invalidServerNameFormat
  | .invalidNameFormat _ => some .invalidServerNameFormat
  | .reservedVersion => some .reservedVersionString
  | .versionLooksLikeRange _ => some .versionLooksLikeRange
  | .invalidRepositoryURL _ => some .invalidRepositoryURL
  | .invalidSubfolderPath _ => some .invalidSubfolderPath
  | .packageNameHasSpaces => some .packageNameHasSpaces
  | .namedArgumentNameRequired => some .namedArgumentNameRequired
  | .invalidNamedArgumentName _ => some .invalidNamedArgumentName
  | .argumentValueStartsWithName _ _ => some .argumentValueStartsWithName
  | .argumentDefaultStartsWithName _ _ => some .argumentDefaultStartsWithName
  | .transportUndefinedTemplateVars _ _ => some .invalidRemoteURL
  | .transportInvalidURL _ => some .invalidRemoteURL
  | .remoteInvalidURL _ => some .invalidRemoteURL
  | _ => none

/-- Sequencing of fail-fast checks: Go's `if err := f(); err != nil { return err }`. -/
def seqE (a b : Except ValidationError Unit) : Except ValidationError Unit :=
  match a with
  | .error e => .error e
  | .ok () => b

/-- Discard the value of a successful check (`if _, err := f(); err != nil`). -/
def discardE {α : Type} (a : Except ValidationError α) : Except ValidationError Unit :=
  match a with
  | .error e => .error e
  | .ok _ => .ok ()

/-- Wrap the error of a failing check (`fmt.Errorf("…: %w", err)`). -/
def wrapE (w : ValidationError → ValidationError) (a : Except ValidationError Unit) :
    Except ValidationError Unit :=
  match a with
  | .error e => .error (w e)
  | .ok () => .ok ()

/-- Go `for … range` loop returning the first failure. -/
def firstErr {α : Type} (f : α → Except ValidationError Unit) :
    List α → Except ValidationError Unit
  | [] => .ok ()
  | x :: xs =>
    match f x with
    | .error e => .error e
    | .ok () => firstErr f xs

/-! ## Schema support (`pkg/model/schema_support.go`) -/

/-- Modelled from the spec: the exact identifier strings of
`model.CurrentSchemaVersion` are defined outside `src/`; the supported-version
set is a fixed two-element list of date-stamped identifiers (§4.1).  No claim
depends on the particular strings. -/
def CurrentSchemaVersion : String := "2025-12-11"

/-- Modelled from the spec: legacy schema version identifier; its Go constant
name `LegacySchemaVersion20250929` fixes the date stamp. -/
def LegacySchemaVersion20250929 : String := "2025-09-29"

def SupportedSchemaVersions : List String :=
  [CurrentSchemaVersion, LegacySchemaVersion20250929]

def IsSupportedSchemaVersion (schemaURL : String) : Bool :=
  if schemaURL = "" then false
  else SupportedSchemaVersions.any (fun version => strContainsSub schemaURL version)

/-! ## Helpers of the validators package defined outside `src/` -/

def SchemeHTTPS : String := "https"

/-- Modelled from the spec: `HasNoSpaces` (declared outside `src/`); §4.5 — a
package identifier "must contain no whitespace". -/
def HasNoSpaces (s : String) : Bool := s.data.all (fun c => ¬ goTrimWS c)

/-- Modelled from the spec: `IsValidRepositoryURL` (declared outside `src/`);
§4.4 — the URL is validated "against the declared source kind's expected host
pattern". -/
def IsValidRepositoryURL (repoSource : String) (url : String) : Bool :=
  if repoSource = "github" then strStarts url "https://github.com/"
  else if repoSource = "gitlab" then strStarts url "https://gitlab.com/"
  else false

/-- Modelled from the spec: `IsValidSubfolderPath` (declared outside `src/`);
§4.4 — the subfolder must be "a safe relative path". -/
def IsValidSubfolderPath (subfolder : String) : Bool :=
  ¬ strStarts subfolder "/" &&
  (splitOnChar '/' subfolder.data).all (fun seg => ¬ seg.isEmpty && seg ≠ ['.', '.'])

/-- Left brace character, kept out of source text. -/
def braceL : Char := Char.ofNat 123

/-- Right brace character, kept out of source text. -/
def braceR : Char := Char.ofNat 125

/-- Modelled from the spec: `extractTemplateVariables` (declared outside
`src/`); collects the names of the brace-delimited `template variable`
placeholders appearing in a URL (§4.5, Glossary). -/
def extractTemplateVariables (url : String) : List String :=
  go url.data none []
where
  go : List Char → Option (List Char) → List String → List String
    | [], _, acc => acc.reverse
    | c :: r, st, acc =>
      if c = braceL then go r (some []) acc
      else if c = braceR then
        match st with
        | some cur => go r none (String.mk cur.reverse :: acc)
        | none => go r none acc
      else
        match st with
        | some cur => go r (some (c :: cur)) acc
        | none => go r none acc

/-- Replace each complete placeholder by its variable name, so that a
templated URL can be checked for basic syntactic validity. -/
def substituteTemplates (url : String) : String :=
  String.mk (go url.data none [])
where
  go : List Char → Option (List Char) → List Char → List Char
    | [], none, out => out.reverse
    | [], some cur, out => (cur ++ braceL :: out).reverse
    | c :: r, st, out =>
      if c = braceL then go r (some []) out
      else if c = braceR then
        match st with
        | some cur => go r none (cur ++ out)
        | none => go r none out
      else
        match st with
        | some cur => go r (some (c :: cur)) out
        | none => go r none (c :: out)

/-- Modelled from the spec: basic syntactic URL validity used by the URL
helpers declared outside `src/` — the URL parses, is absolute, and uses an
HTTP(S) scheme. -/
def isBasicValidURL (url : String) : Bool :=
  match urlParse url with
  | none => false
  | some u => u.isAbs && (u.scheme = "http" || u.scheme = SchemeHTTPS)

/-- Modelled from the spec: `IsValidTemplatedURL` (declared outside `src/`);
§4.5 — the URL "must be a syntactically valid URL once every `brace variable`
placeholder it contains is checked against the available-variable set". -/
def IsValidTemplatedURL (url : String) (availableVariables : List String)
    (allowTemplates : Bool) : Bool :=
  let tvars := extractTemplateVariables url
  if ¬ tvars.isEmpty && ¬ allowTemplates then false
  else tvars.all (fun v => availableVariables.contains v) &&
    isBasicValidURL (substituteTemplates url)

/-- The local-development hostname condition of
`validateRemoteURLMatchesNamespace`: `localhost`, `*.localhost`, `127.0.0.1`. -/
def isLocalExemptHost (hostname : String) : Bool :=
  hostname = "localhost" || strEnds hostname ".localhost" || hostname = "127.0.0.1"

/-- Modelled from the spec: `IsValidRemoteURL` (declared outside `src/`);
§4.5 — for manifest-level remotes the URL must be a syntactically valid,
non-templated HTTPS URL ("no templates allowed for remotes, no localhost"). -/
def IsValidRemoteURL (url : String) : Bool :=
  match urlParse url with
  | none => false
  | some u =>
    u.isAbs && u.scheme = SchemeHTTPS &&
    (extractTemplateVariables url).isEmpty &&
    u.hostname ≠ "" &&
    ¬ isLocalExemptHost u.hostname

/-! ## `internal/validators/validators.go` -/

/-- Bounded character-class pattern `^A B* C$`: at least two characters, the
first in class `A`, the last in class `C`, all middle characters in `B`. -/
def boundedClassMatch (first mid last : Char → Bool) : List Char → Bool
  | [] => false
  | c :: rest => first c && boundedTail mid last rest
where
  boundedTail (mid last : Char → Bool) : List Char → Bool
    | [] => false
    | [c] => last c
    | c :: rest => mid c && boundedTail mid last rest

def isAlnum (c : Char) : Bool := c.isAlpha || c.isDigit

/-- `namespaceRegex`: anchored `[a-zA-Z0-9][a-zA-Z0-9.-]*[a-zA-Z0-9]`. -/
def namespaceRegexMatch (l : List Char) : Bool :=
  boundedClassMatch isAlnum (fun c => isAlnum c || c = '.' || c = '-') isAlnum l

/-- `namePartRegex`: anchored `[a-zA-Z0-9][a-zA-Z0-9._-]*[a-zA-Z0-9]`. -/
def namePartRegexMatch (l : List Char) : Bool :=
  boundedClassMatch isAlnum (fun c => isAlnum c || c = '.' || c = '_' || c = '-')
    isAlnum l

/-- `serverNameRegex`: anchored `namespace / namePart`.  Neither component
class contains `/`, so the split point is forced at the unique slash. -/
def serverNameRegexMatch (l : List Char) : Bool :=
  match splitAtFirst '/' l with
  | none => false
  | some (ns, np) => namespaceRegexMatch ns && namePartRegexMatch np

/-- `parseServerName`. -/
def parseServerName (serverJSON : ServerJSON) : Except ValidationError String :=
  let name := serverJSON.name
  if name = "" then .error .nameRequired
  else if ¬ strContainsSub name "/" then .error .nameMissingSlash
  else if countChar '/' name.data > 1 then .error .nameMultipleSlashes
  else
    match splitAtFirst '/' name.data with
    | none => .error .nameEmptyParts
    | some (p0, p1) =>
      if p0.isEmpty || p1.isEmpty then .error .nameEmptyParts
      else if ¬ serverNameRegexMatch name.data then
        if ¬ namespaceRegexMatch p0 then .error (.invalidNamespaceName (String.mk p0))
        else if ¬ namePartRegexMatch p1 then .error (.invalidNamePartName (String.mk p1))
        else .error (.invalidNameFormat name)
      else .ok name

/-- `looksLikeVersionRange`. -/
def looksLikeVersionRange (version : String) : Bool :=
  let trimmed := trimSpaceL version.data
  if trimmed.isEmpty then false
  else if comparatorRangeMatch trimmed then true
  else if hyphenRangeMatch trimmed then true
  else if orRangeMatch trimmed then true
  else if dottedVersionLikeMatch trimmed then
    trimmed.contains 'x' || trimmed.contains 'X' || trimmed.contains '*'
  else false

/-- `validateVersion`. -/
def validateVersion (version : String) : Except ValidationError Unit :=
  if version = "latest" then .error .reservedVersion
  else if looksLikeVersionRange version then .error (.versionLooksLikeRange version)
  else .ok ()

/-- `validateRepository`. -/
def validateRepository (obj : Option Repository) : Except ValidationError Unit :=
  match obj with
  | none => .ok ()
  | some repo =>
    if repo.url = "" && repo.source = "" then .ok ()
    else if ¬ IsValidRepositoryURL repo.source repo.url then
      .error (.invalidRepositoryURL repo.url)
    else if repo.subfolder ≠ "" && ¬ IsValidSubfolderPath repo.subfolder then
      .error (.invalidSubfolderPath repo.subfolder)
    else .ok ()

/-- `validateWebsiteURL`. -/
def validateWebsiteURL (websiteURL : String) : Except ValidationError Unit :=
  if websiteURL = "" then .ok ()
  else
    match urlParse websiteURL with
    | none => .error (.websiteURLParseError websiteURL)
    | some parsedURL =>
      if ¬ parsedURL.isAbs then .error (.websiteURLNotAbsolute websiteURL)
      else if parsedURL.scheme ≠ SchemeHTTPS then .error (.websiteURLNotHTTPS websiteURL)
      else .ok ()

/-- `validateTitle`. -/
def validateTitle (title : String) : Except ValidationError Unit :=
  if title = "" then .ok ()
  else if (trimSpaceL title.data).isEmpty then .error .titleOnlyWhitespace
  else .ok ()

/-- `validateIcon`. -/
def validateIcon (icon : Icon) : Except ValidationError Unit :=
  match urlParse icon.src with
  | none => .error (.iconParseError icon.src)
  | some parsedURL =>
    if ¬ parsedURL.isAbs then .error (.iconNotAbsolute icon.src)
    else if parsedURL.scheme ≠ SchemeHTTPS then
      .error (.iconNotHTTPS parsedURL.scheme icon.src)
    else .ok ()

/-- `validateIcons` (wraps failures with the icon's index). -/
def validateIcons (icons : List Icon) : Except ValidationError Unit :=
  go 0 icons
where
  go : Nat → List Icon → Except ValidationError Unit
    | _, [] => .ok ()
    | i, icon :: rest =>
      match validateIcon icon with
      | .error e => .error (.iconAtIndex i e)
      | .ok () => go (i + 1) rest

/-- `validateNamedArgumentName`. -/
def validateNamedArgumentName (name : String) : Except ValidationError Unit :=
  if name = "" then .error .namedArgumentNameRequired
  else if strContainsSub name "<" || strContainsSub name ">" ||
      strContainsSub name " " || strContainsSub name "$" then
    .error (.invalidNamedArgumentName name)
  else .ok ()

/-- `validateArgumentValueFields`. -/
def validateArgumentValueFields (name value defaultValue : String) :
    Except ValidationError Unit :=
  if value ≠ "" && strStarts value name then
    .error (.argumentValueStartsWithName name value)
  else if defaultValue ≠ "" && strStarts defaultValue name then
    .error (.argumentDefaultStartsWithName name defaultValue)
  else .ok ()

/-- `validateArgument`. -/
def validateArgument (obj : Argument) : Except ValidationError Unit :=
  if obj.type = argumentTypeNamed then
    seqE (validateNamedArgumentName obj.name)
      (validateArgumentValueFields obj.name obj.value obj.default)
  else .ok ()

/-- `collectAvailableVariables`. -/
def collectAvailableVariables (pkg : Package) : List String :=
  (pkg.environmentVariables.map EnvVar.name) ++
  (pkg.runtimeArguments.flatMap argVars) ++
  (pkg.packageArguments.flatMap argVars)
where
  argVars (arg : Argument) : List String :=
    (if arg.name ≠ "" then [arg.name] else []) ++
    (if arg.valueHint ≠ "" then [arg.valueHint] else [])

/-- `validatePackageTransport`. -/
def validatePackageTransport (transport : Transport)
    (availableVariables : List String) : Except ValidationError Unit :=
  if transport.type = transportTypeStdio then
    if transport.url ≠ "" then
      .error (.transportURLMustBeEmpty transport.type transport.url)
    else .ok ()
  else if transport.type = transportTypeStreamableHTTP ∨
      transport.type = transportTypeSSE then
    if transport.url = "" then .error (.transportURLRequired transport.type)
    else if ¬ IsValidTemplatedURL transport.url availableVariables true then
      if (extractTemplateVariables transport.url).length > 0 then
        .error (.transportUndefinedTemplateVars transport.url availableVariables)
      else .error (.transportInvalidURL transport.url)
    else .ok ()
  else .error (.unsupportedTransportType transport.type)

/-- `validateRemoteTransport`. -/
def validateRemoteTransport (obj : Transport) : Except ValidationError Unit :=
  if obj.type = transportTypeStreamableHTTP ∨ obj.type = transportTypeSSE then
    if obj.url = "" then .error (.transportURLRequired obj.type)
    else if ¬ IsValidRemoteURL obj.url then .error (.remoteInvalidURL obj.url)
    else .ok ()
  else .error (.unsupportedRemoteTransportType obj.type)

/-- `validatePackageField`. -/
def validatePackageField (obj : Package) : Except ValidationError Unit :=
  if ¬ HasNoSpaces obj.identifier then .error .packageNameHasSpaces
  else
    seqE (validateVersion obj.version)
    (seqE (firstErr (fun arg => wrapE .invalidRuntimeArgument (validateArgument arg))
        obj.runtimeArguments)
    (seqE (firstErr (fun arg => wrapE .invalidPackageArgument (validateArgument arg))
        obj.packageArguments)
    (wrapE .invalidTransport
      (validatePackageTransport obj.transport (collectAvailableVariables obj)))))

/-- `extractPublisherDomainFromNamespace`. -/
def extractPublisherDomainFromNamespace (ns : String) : String :=
  let nsPart :=
    match splitAtFirst '/' ns.data with
    | none => ns.data
    | some (before, _) => before
  let parts := splitOnChar '.' nsPart
  if parts.length < 2 then ""
  else String.mk (joinWithChar '.' parts.reverse)

/-- `isValidHostForDomain`. -/
def isValidHostForDomain (hostname publisherDomain : String) : Bool :=
  hostname = publisherDomain || strEnds hostname ("." ++ publisherDomain)

/-- `validateRemoteURLMatchesNamespace`. -/
def validateRemoteURLMatchesNamespace (remoteURL ns : String) :
    Except ValidationError Unit :=
  match urlParse remoteURL with
  | none => .error (.urlParseError remoteURL)
  | some parsedURL =>
    let hostname := parsedURL.hostname
    if hostname = "" then .error .urlNoHostname
    else if isLocalExemptHost hostname = true then .ok ()
    else
      let publisherDomain := extractPublisherDomainFromNamespace ns
      if publisherDomain = "" then .error (.invalidNamespaceFormat ns)
      else if ¬ isValidHostForDomain hostname publisherDomain then
        .error (.namespaceMismatch hostname publisherDomain)
      else .ok ()

/-- `validateRemoteNamespaceMatch`. -/
def validateRemoteNamespaceMatch (serverJSON : ServerJSON) :
    Except ValidationError Unit :=
  firstErr
    (fun remote =>
      wrapE (.remoteNamespaceWrap remote.url serverJSON.name)
        (validateRemoteURLMatchesNamespace remote.url serverJSON.name))
    serverJSON.remotes

/-- `validateWebsiteURLNamespaceMatch`. -/
def validateWebsiteURLNamespaceMatch (serverJSON : ServerJSON) :
    Except ValidationError Unit :=
  if serverJSON.websiteUrl = "" then .ok ()
  else
    wrapE (.websiteNamespaceWrap serverJSON.websiteUrl serverJSON.name)
      (validateRemoteURLMatchesNamespace serverJSON.websiteUrl serverJSON.name)

/-- The two leading schema checks of `ValidateServerJSON`. -/
def validateSchemaField (schema : String) : Except ValidationError Unit :=
  if schema = "" then .error .schemaMissing
  else if ¬ IsSupportedSchemaVersion schema then .error (.schemaUnsupported schema)
  else .ok ()

/-- `ValidateServerJSON` (the spec's `ValidateManifest`). -/
def ValidateServerJSON (s : ServerJSON) : Except ValidationError Unit :=
  seqE (validateSchemaField s.schema)
  (seqE (discardE (parseServerName s))
  (seqE (validateVersion s.version)
  (seqE (validateRepository s.repository)
  (seqE (validateWebsiteURL s.websiteUrl)
  (seqE (validateTitle s.title)
  (seqE (validateIcons s.icons)
  (seqE (firstErr validatePackageField s.packages)
  (seqE (firstErr validateRemoteTransport s.remotes)
  (seqE (validateRemoteNamespaceMatch s)
  (validateWebsiteURLNamespaceMatch s))))))))))

/-- `maxExtensionSize` (4 KB). -/
def maxExtensionSize : Nat := 4 * 1024

/-- `validatePublisherExtensions`.  `json.Marshal` of a representable JSON
value cannot fail, so the marshal-error branch of the Go code is not
reachable in the model. -/
def validatePublisherExtensions (req : ServerJSON) : Except ValidationError Unit :=
  match req.meta with
  | none => .ok ()
  | some meta =>
    match meta.publisherProvided with
    | none => .ok ()
    | some blob =>
      let extensionsJSON := blob.serialize
      if utf8Len extensionsJSON > maxExtensionSize then
        .error (.extensionTooLarge (utf8Len extensionsJSON))
      else .ok ()

structure Config where
  enableRegistryValidation : Bool

/-- `ValidatePublishRequest`.  The per-package registry-ownership check
(`ValidatePackage`) is an external collaborator defined outside `src/` (§4.6)
and is passed in as an oracle. -/
def ValidatePublishRequest
    (validatePackage : Package → String → Except ValidationError Unit)
    (req : ServerJSON) (cfg : Config) : Except ValidationError Unit :=
  seqE (validatePublisherExtensions req)
  (seqE (ValidateServerJSON req)
  (if cfg.enableRegistryValidation then
    go validatePackage req 0 req.packages
  else .ok ()))
where
  go (validatePackage : Package → String → Except ValidationError Unit)
      (req : ServerJSON) : Nat → List Package → Except ValidationError Unit
    | _, [] => .ok ()
    | i, pkg :: rest =>
      match validatePackage pkg req.name with
      | .error e => .error (.registryValidationFailed i pkg.identifier e)
      | .ok () => go validatePackage req (i + 1) rest

/-! ## `internal/importer/importer.go`

HTTP fetching is abstracted as an oracle from request URL to response; the
registry storage collaborator (`RegistryService.CreateServer`) as an oracle
from manifest to an optional error.  The page-fetch loop of
`fetchFromRegistryAPI` is an unbounded Go `for` loop; it is embedded with a
fuel parameter, `.ranOut` marking an execution that has not terminated within
the given fuel. -/

structure RegistryMetadata where
  nextCursor : String
  deriving Repr, DecidableEq

structure ServerResponse where
  server : ServerJSON
  deriving Repr

structure RegistryPage where
  servers : List ServerResponse
  metadata : Option RegistryMetadata
  deriving Repr

inductive FetchError where
  | fetchFailed (url : String) (msg : String)
  | ranOut
  deriving Repr, DecidableEq

/-- The request URL of one iteration: the prior page's cursor is appended to
the base URL verbatim as a `cursor` query parameter once non-empty. -/
def buildPageURL (baseURL cursor : String) : String :=
  if cursor = "" then baseURL
  else if strContainsSub baseURL "?" then baseURL ++ "&cursor=" ++ cursor
  else baseURL ++ "?cursor=" ++ cursor

/-- The `for` loop of `fetchFromRegistryAPI`.  Returns the accumulated
manifests together with the trace of request URLs issued, in order. -/
def fetchPagesLoop (fetch : String → Except String RegistryPage) (baseURL : String) :
    Nat → String → Except FetchError (List ServerJSON × List String)
  | 0, _ => .error .ranOut
  | fuel + 1, cursor =>
    let url := buildPageURL baseURL cursor
    match fetch url with
    | .error e => .error (.fetchFailed url e)
    | .ok response =>
      let records := response.servers.map ServerResponse.server
      match response.metadata with
      | none => .ok (records, [url])
      | some md =>
        if md.nextCursor = "" then .ok (records, [url])
        else
          match fetchPagesLoop fetch baseURL fuel md.nextCursor with
          | .error e => .error e
          | .ok (rest, urls) => .ok (records ++ rest, url :: urls)

/-- `fetchFromRegistryAPI`: the loop starts with an empty cursor. -/
def fetchFromRegistryAPI (fetch : String → Except String RegistryPage)
    (baseURL : String) (fuel : Nat) :
    Except FetchError (List ServerJSON × List String) :=
  fetchPagesLoop fetch baseURL fuel ""

/-- Validation-filter stage of `readSeedFile`: split decoded records into
valid records, invalid server names, and per-record validation failures. -/
def filterValidServers : List ServerJSON →
    List ServerJSON × List String × List (String × ValidationError)
  | [] => ([], [], [])
  | s :: rest =>
    let tail := filterValidServers rest
    match ValidateServerJSON s with
    | .error e => (tail.1, s.name :: tail.2.1, (s.name, e) :: tail.2.2)
    | .ok () => (s :: tail.1, tail.2.1, tail.2.2)

/-- Creation stage of `ImportFromPath`: invoke `CreateServer` sequentially on
every record; collect the names that succeeded and the failure reports, in
input order.  A failure does not stop the loop. -/
def createAllServers (createServer : ServerJSON → Option String) :
    List ServerJSON → List String × List String
  | [] => ([], [])
  | s :: rest =>
    let tail := createAllServers createServer rest
    match createServer s with
    | some errMsg => (tail.1, (s.name ++ ": " ++ errMsg) :: tail.2)
    | none => (s.name :: tail.1, tail.2)

/-- Aggregate outcome of `ImportFromPath` past the decode stage: the logged
name lists and the overall result. -/
structure ImportResult where
  invalidServers : List String
  successfullyCreated : List String
  failedCreations : List String
  importError : Option String
  deriving Repr, DecidableEq

/-- `ImportFromPath` after decoding: validate each record (invalid records
are skipped, not fatal), create every valid record, and fail overall iff any
creation failed, reporting the failure count. -/
def importFromSeed (createServer : ServerJSON → Option String)
    (decoded : List ServerJSON) : ImportResult :=
  let validRecords := (filterValidServers decoded).1
  let invalidServers := (filterValidServers decoded).2.1
  let successfullyCreated := (createAllServers createServer validRecords).1
  let failedCreations := (createAllServers createServer validRecords).2
  { invalidServers := invalidServers
    successfullyCreated := successfullyCreated
    failedCreations := failedCreations
    importError :=
      if failedCreations.length > 0 then
        some ("failed to import " ++ toString failedCreations.length ++ " servers")
      else none }

/-! ## Statement-side predicates and concrete inputs used by the claims -/

/-- The hostname of a URL string, when it parses. -/
def hostnameOf (url : String) : Option String :=
  (urlParse url).map GoURL.hostname

/-- `^\d+$` -/
def allDigits1 (l : List Char) : Bool :=
  !l.isEmpty && l.all Char.isDigit

/-- `(\.\d+){1,n}$` -/
def pdnGroups : Nat → List Char → Bool
  | _, [] => true
  | 0, _ => false
  | n + 1, c :: t =>
    if c = '.' then
      match splitAtFirst '.' t with
      | none => allDigits1 t
      | some (seg, rest) => allDigits1 seg && pdnGroups n ('.' :: rest)
    else false

/-- The claim's plain dotted numeric version pattern `^\d+(\.\d+){0,3}$`. -/
def plainDottedNumeric (s : String) : Bool :=
  match splitAtFirst '.' s.data with
  | none => allDigits1 s.data
  | some (seg, rest) => allDigits1 seg && pdnGroups 3 ('.' :: rest)

/-- A minimal manifest every validator accepts. -/
def exampleManifest : ServerJSON :=
  { schema := CurrentSchemaVersion
    name := "com.example/alpha"
    version := "1.0.0"
    title := ""
    websiteUrl := ""
    repository := none
    icons := []
    packages := []
    remotes := []
    meta := none }

/-- C1 counterexample input: a manifest whose icon is served from a host
foreign to the `com.example` namespace. -/
def foreignIconManifest : ServerJSON :=
  { exampleManifest with icons := [⟨"https://evil.com/icon.png"⟩] }

/-- A manifest with a remote and a website URL on the publisher's domain. -/
def remoteWebsiteManifest : ServerJSON :=
  { exampleManifest with
      remotes := [⟨"streamable-http", "https://example.com/mcp"⟩]
      websiteUrl := "https://api.example.com" }

/-- A catalog server whose every response carries a non-empty `nextCursor`. -/
def nonTerminatingCatalog : String → Except String RegistryPage :=
  fun _ => .ok { servers := [], metadata := some { nextCursor := "next" } }

def pageManifest (n : String) : ServerJSON :=
  { exampleManifest with name := "com.example/" ++ n }

/-- A three-page catalog with cursors `A`, `B`, `""`, keyed by request URL. -/
def threePageCatalog : String → Except String RegistryPage := fun url =>
  if url = "https://registry.example.com/v0/servers" then
    .ok { servers := [⟨pageManifest "one"⟩, ⟨pageManifest "two"⟩]
          metadata := some { nextCursor := "A" } }
  else if url = "https://registry.example.com/v0/servers?cursor=A" then
    .ok { servers := [⟨pageManifest "three"⟩]
          metadata := some { nextCursor := "B" } }
  else if url = "https://registry.example.com/v0/servers?cursor=B" then
    .ok { servers := [⟨pageManifest "four"⟩]
          metadata := some { nextCursor := "" } }
  else .error "unexpected request"

/-- Seed batch of five manifests: two fail validation (empty name, reserved
version), three are valid. -/
def seedBatch5 : List ServerJSON :=
  [ exampleManifest
  , { exampleManifest with name := "" }
  , { exampleManifest with name := "com.example/beta" }
  , { exampleManifest with name := "com.example/delta", version := "latest" }
  , { exampleManifest with name := "com.example/gamma" } ]

/-- A storage collaborator that fails creation for exactly one record. -/
def createOracle5 : ServerJSON → Option String := fun s =>
  if s.name = "com.example/gamma" then some "db down" else none

/-- A publisher-extension blob whose serialization exceeds 4096 bytes. -/
def oversizedBlob : Json := .str (String.mk (List.replicate 5000 'a'))

/-- A small publisher-extension blob. -/
def smallBlob : Json := .obj [("note", .str "hi")]

/-- An otherwise-invalid manifest (empty name) carrying an oversized blob. -/
def oversizedExtensionManifest : ServerJSON :=
  { exampleManifest with
      name := ""
      meta := some { publisherProvided := some oversizedBlob } }

/-- A registry-ownership collaborator oracle that accepts everything. -/
def acceptAllPackages : Package → String → Except ValidationError Unit :=
  fun _ _ => .ok ()

/-- The claim's templated transport URL `https://example.com/` followed by a
brace-delimited `port` placeholder. -/
def templatedPortURL : String :=
  String.mk ("https://example.com/".data ++ braceL :: "port".data ++ [braceR])

/-! ## Supporting lemmas -/

theorem seqE_ok {a b : Except ValidationError Unit} :
    seqE a b = .ok () ↔ a = .ok () ∧ b = .ok () := by
  cases a with
  | error e => simp [seqE]
  | ok u => cases u; simp [seqE]

theorem wrapE_ok {w : ValidationError → ValidationError}
    {a : Except ValidationError Unit} : wrapE w a = .ok () ↔ a = .ok () := by
  cases a with
  | error e => simp [wrapE]
  | ok u => cases u; simp [wrapE]

theorem firstErr_ok {α : Type} {f : α → Except ValidationError Unit} :
    ∀ {l : List α}, firstErr f l = .ok () → ∀ x ∈ l, f x = .ok () := by
  intro l
  induction l with
  | nil => intro _ x hx; simp at hx
  | cons a as ih =>
    intro h x hx
    simp only [firstErr] at h
    cases hfa : f a with
    | error e => rw [hfa] at h; simp at h
    | ok u =>
      cases u
      rw [hfa] at h
      rcases List.mem_cons.mp hx with rfl | hmem
      · exact hfa
      · exact ih h x hmem

theorem foldl_utf8Size : ∀ (l : List Char) (n : Nat),
    List.foldl (fun a c => a + c.utf8Size) n l = n + (l.map Char.utf8Size).sum := by
  intro l
  induction l with
  | nil => intro n; simp
  | cons c cs ih =>
    intro n
    simp only [List.foldl_cons, List.map_cons, List.sum_cons, ih]
    omega

theorem flatMap_escape_replicate_a :
    ∀ n : Nat, (List.replicate n 'a').flatMap escapeJsonChar = List.replicate n 'a' := by
  intro n
  induction n with
  | zero => rfl
  | succ k ih =>
    simp only [List.replicate_succ, List.flatMap_cons, ih]
    rfl

theorem utf8Len_oversizedBlob : utf8Len oversizedBlob.serialize = 5002 := by
  show utf8Len (escapeJsonString (String.mk (List.replicate 5000 'a'))) = 5002
  unfold escapeJsonString utf8Len
  rw [show (String.mk (List.replicate 5000 'a')).data = List.replicate 5000 'a' from rfl]
  rw [flatMap_escape_replicate_a]
  rw [show (String.mk (('"' :: List.replicate 5000 'a') ++ ['"'])).data =
      ('"' :: List.replicate 5000 'a') ++ ['"'] from rfl]
  rw [foldl_utf8Size]
  rw [List.map_append, List.map_cons, List.map_replicate]
  rw [List.sum_append, List.sum_cons, List.sum_replicate]
  simp only [Char.utf8Size, List.map_cons, List.map_nil, List.sum_cons, List.sum_nil,
    smul_eq_mul]
  decide

/-- A URL passing the namespace-ownership check parses, has a non-empty
hostname, and that hostname is either locally exempt or owned by the
namespace's publisher domain. -/
theorem remoteURLMatch_ok {u ns : String}
    (h : validateRemoteURLMatchesNamespace u ns = .ok ()) :
    ∃ g : GoURL, urlParse u = some g ∧ g.hostname ≠ "" ∧
      (isLocalExemptHost g.hostname = true ∨
        isValidHostForDomain g.hostname (extractPublisherDomainFromNamespace ns)
          = true) := by
  unfold validateRemoteURLMatchesNamespace at h
  cases hp : urlParse u with
  | none => rw [hp] at h; simp at h
  | some g =>
    rw [hp] at h
    simp only at h
    refine ⟨g, rfl, ?_, ?_⟩
    · intro h0
      rw [if_pos h0] at h
      simp at h
    · by_cases h0 : g.hostname = ""
      · rw [if_pos h0] at h; simp at h
      · rw [if_neg h0] at h
        by_cases h1 : isLocalExemptHost g.hostname = true
        · exact Or.inl h1
        · rw [if_neg h1] at h
          by_cases h2 : extractPublisherDomainFromNamespace ns = ""
          · rw [if_pos h2] at h; simp at h
          · rw [if_neg h2] at h
            by_cases h3 : isValidHostForDomain g.hostname
                (extractPublisherDomainFromNamespace ns) = true
            · exact Or.inr h3
            · rw [if_pos (by simpa using h3)] at h
              simp at h

theorem fetchPagesLoop_nonTerminating :
    ∀ (fuel : Nat) (cursor : String),
      fetchPagesLoop nonTerminatingCatalog "https://registry.example.com/v0/servers"
        fuel cursor = .error .ranOut := by
  intro fuel
  induction fuel with
  | zero => intro _; rfl
  | succ n ih =>
    intro c
    simp only [fetchPagesLoop, nonTerminatingCatalog]
    rw [if_neg (by decide : ¬ ("next" : String) = "")]
    rw [ih "next"]

theorem splitAtFirst_append {c : Char} :
    ∀ {l b r : List Char}, splitAtFirst c l = some (b, r) → l = b ++ c :: r := by
  intro l
  induction l with
  | nil => intro b r h; simp [splitAtFirst] at h
  | cons a as ih =>
    intro b r h
    simp only [splitAtFirst] at h
    by_cases hac : a = c
    · rw [if_pos hac] at h
      simp only [Option.some.injEq, Prod.mk.injEq] at h
      obtain ⟨rfl, rfl⟩ := h
      simp [hac]
    · rw [if_neg hac] at h
      cases hs : splitAtFirst c as with
      | none => rw [hs] at h; simp at h
      | some p =>
        rw [hs] at h
        simp only [Option.some.injEq] at h
        obtain ⟨rfl, rfl⟩ : a :: p.1 = b ∧ p.2 = r := by
          cases p; simpa using h
        simpa using ih hs

theorem allDigits1_spec {l : List Char} (h : allDigits1 l = true) :
    l ≠ [] ∧ ∀ a ∈ l, a.isDigit = true := by
  simp only [allDigits1, Bool.and_eq_true, List.all_eq_true] at h
  obtain ⟨h1, h2⟩ := h
  refine ⟨?_, fun a ha => h2 a ha⟩
  rintro rfl
  simp at h1

theorem pdnGroups_chars :
    ∀ (n : Nat) (l : List Char), pdnGroups n l = true →
      ∀ a ∈ l, a.isDigit = true ∨ a = '.' := by
  intro n
  induction n with
  | zero =>
    intro l h a ha
    cases l with
    | nil => simp at ha
    | cons c t => simp [pdnGroups] at h
  | succ n ih =>
    intro l h a ha
    cases l with
    | nil => simp at ha
    | cons c t =>
      simp only [pdnGroups] at h
      by_cases hc : c = '.'
      · rw [if_pos hc] at h
        cases hsp : splitAtFirst '.' t with
        | none =>
          rw [hsp] at h
          obtain ⟨-, hall⟩ := allDigits1_spec h
          rcases List.mem_cons.mp ha with rfl | hat
          · exact Or.inr hc
          · exact Or.inl (hall a hat)
        | some p =>
          obtain ⟨seg, rest⟩ := p
          rw [hsp] at h
          simp only [Bool.and_eq_true] at h
          obtain ⟨hseg, hgr⟩ := h
          have ht : t = seg ++ '.' :: rest := splitAtFirst_append hsp
          rcases List.mem_cons.mp ha with rfl | hat
          · exact Or.inr hc
          · rw [ht] at hat
            rcases List.mem_append.mp hat with hseg2 | hrest
            · exact Or.inl ((allDigits1_spec hseg).2 a hseg2)
            · exact ih ('.' :: rest) hgr a hrest
      · rw [if_neg hc] at h
        simp at h

theorem plainDotted_spec {s : String} (h : plainDottedNumeric s = true) :
    (∃ d t, s.data = d :: t ∧ d.isDigit = true) ∧
      ∀ a ∈ s.data, a.isDigit = true ∨ a = '.' := by
  unfold plainDottedNumeric at h
  cases hsp : splitAtFirst '.' s.data with
  | none =>
    rw [hsp] at h
    obtain ⟨hne, hall⟩ := allDigits1_spec h
    cases hd : s.data with
    | nil => exact absurd hd hne
    | cons d t =>
      rw [hd] at hall
      exact ⟨⟨d, t, rfl, hall d (by simp)⟩, fun a ha => Or.inl (hall a ha)⟩
  | some p =>
    obtain ⟨seg, rest⟩ := p
    rw [hsp] at h
    simp only [Bool.and_eq_true] at h
    obtain ⟨hseg, hgr⟩ := h
    have hEq : s.data = seg ++ '.' :: rest := splitAtFirst_append hsp
    obtain ⟨hsegne, hsegall⟩ := allDigits1_spec hseg
    have hrest := pdnGroups_chars 3 ('.' :: rest) hgr
    constructor
    · cases hsd : seg with
      | nil => exact absurd hsd hsegne
      | cons d t =>
        refine ⟨d, t ++ '.' :: rest, ?_, hsegall d (by simp [hsd])⟩
        rw [hEq, hsd]
        simp
    · intro a ha
      rw [hEq] at ha
      rcases List.mem_append.mp ha with h1 | h2
      · exact Or.inl (hsegall a h1)
      · exact hrest a h2

theorem dropWhile_eq_self_of {p : Char → Bool} :
    ∀ {l : List Char}, (∀ a ∈ l, p a = false) → l.dropWhile p = l := by
  intro l h
  cases l with
  | nil => rfl
  | cons a t =>
    rw [List.dropWhile_cons]
    simp [h a (by simp)]

theorem trimSpace_eq_self {l : List Char} (h : ∀ a ∈ l, goTrimWS a = false) :
    trimSpaceL l = l := by
  unfold trimSpaceL
  rw [dropWhile_eq_self_of h]
  rw [dropWhile_eq_self_of (fun a ha => h a (List.mem_reverse.mp ha))]
  exact List.reverse_reverse l

theorem dropWSL_sublist (l : List Char) : List.Sublist (dropWSL l) l :=
  List.dropWhile_sublist _

theorem chompDigits_sublist {l r : List Char} (h : chompDigits l = some r) :
    List.Sublist r l := by
  cases l with
  | nil => simp [chompDigits] at h
  | cons c t =>
    simp only [chompDigits] at h
    by_cases hc : c.isDigit = true
    · rw [if_pos hc] at h
      simp only [Option.some.injEq] at h
      subst h
      exact (List.dropWhile_sublist _).trans (List.sublist_cons_self c t)
    · rw [if_neg hc] at h
      simp at h

theorem chompDotDigits_sublist :
    ∀ (n : Nat) (l : List Char), List.Sublist (chompDotDigits n l) l := by
  intro n
  induction n with
  | zero => intro l; exact List.Sublist.refl l
  | succ n ih =>
    intro l
    unfold chompDotDigits
    split
    · rename_i r
      split
      · rename_i r2 hr2
        exact ((ih r2).trans (chompDigits_sublist hr2)).trans
          (List.sublist_cons_self '.' r)
      · exact List.Sublist.refl _
    · exact List.Sublist.refl _

theorem chompV_sublist (l : List Char) : List.Sublist (chompV l) l := by
  unfold chompV
  split
  · exact List.sublist_cons_self 'v' _
  · exact List.Sublist.refl _

theorem chompVer_sublist {l r : List Char} (h : chompVer l = some r) :
    List.Sublist r l := by
  unfold chompVer at h
  cases hd : chompDigits (chompV l) with
  | none => rw [hd] at h; simp at h
  | some r1 =>
    rw [hd] at h
    simp only [Option.map_some', Option.some.injEq] at h
    subst h
    exact ((chompDotDigits_sublist 3 r1).trans (chompDigits_sublist hd)).trans
      (chompV_sublist l)

theorem chompPre_sublist (l : List Char) : List.Sublist (chompPre l) l := by
  unfold chompPre
  split
  · rename_i r
    split
    · rename_i c t
      split
      · exact (List.dropWhile_sublist _).trans (List.sublist_cons_self '-' _)
      · exact List.Sublist.refl _
    · exact List.Sublist.refl _
  · exact List.Sublist.refl _

theorem expectWS_mem {l r : List Char} (h : expectWS l = some r) :
    ∃ a ∈ l, goWS a = true := by
  cases l with
  | nil => simp [expectWS] at h
  | cons c t =>
    cases hgc : goWS c with
    | true => exact ⟨c, by simp, hgc⟩
    | false => simp [expectWS, hgc] at h

theorem hyphenRange_noWS {l : List Char} (hws : ∀ a ∈ l, goWS a = false) :
    hyphenRangeMatch l = false := by
  unfold hyphenRangeMatch
  cases hcv : chompVer (dropWSL l) with
  | none => rfl
  | some r =>
    have hsub : List.Sublist (chompPre r) l :=
      ((chompPre_sublist r).trans (chompVer_sublist hcv)).trans (dropWSL_sublist l)
    have hexp : expectWS (chompPre r) = none := by
      cases hew : expectWS (chompPre r) with
      | none => rfl
      | some r2 =>
        obtain ⟨a, ha, hgw⟩ := expectWS_mem hew
        exact absurd hgw (by simp [hws a (hsub.subset ha)])
    simp [hexp]

theorem orGroup_pipe {l r : List Char} (h : orGroup l = some r) : '|' ∈ l := by
  unfold orGroup at h
  split at h
  · simp
  · simp at h

theorem orRange_noPipe {l : List Char} (hp : '|' ∉ l) : orRangeMatch l = false := by
  unfold orRangeMatch
  cases hcv : chompVer (dropWSL l) with
  | none => rfl
  | some r =>
    have hsub : List.Sublist (dropWSL (chompPre r)) l :=
      ((dropWSL_sublist (chompPre r)).trans
        ((chompPre_sublist r).trans (chompVer_sublist hcv))).trans (dropWSL_sublist l)
    have hom : orMore (l.length + 1) (dropWSL (chompPre r)) = false := by
      cases hom2 : orMore (l.length + 1) (dropWSL (chompPre r)) with
      | false => rfl
      | true =>
        exfalso
        unfold orMore at hom2
        cases hog : orGroup (dropWSL (chompPre r)) with
        | none => rw [hog] at hom2; simp at hom2
        | some r2 => exact hp (hsub.subset (orGroup_pipe hog))
    simp [hom]

theorem chompComparator_digit {c : Char} {r : List Char} (h : c.isDigit = true) :
    chompComparator (c :: r) = none := by
  have h1 : c ≠ '^' := by rintro rfl; exact absurd h (by decide)
  have h2 : c ≠ '~' := by rintro rfl; exact absurd h (by decide)
  have h3 : ¬ (c = '>' ∨ c = '<') := by
    rintro (rfl | rfl) <;> exact absurd h (by decide)
  have h4 : c ≠ '=' := by rintro rfl; exact absurd h (by decide)
  simp [chompComparator, h1, h2, h3, h4]

theorem comparatorRange_digitHead {d : Char} {t : List Char} (hd : d.isDigit = true)
    (hws : ∀ a ∈ d :: t, goWS a = false) :
    comparatorRangeMatch (d :: t) = false := by
  unfold comparatorRangeMatch
  rw [show dropWSL (d :: t) = d :: t from dropWhile_eq_self_of hws]
  rw [chompComparator_digit hd]

theorem list_contains_false {c : Char} :
    ∀ {l : List Char}, (∀ a ∈ l, a ≠ c) → l.contains c = false := by
  intro l h
  induction l with
  | nil => rfl
  | cons a t ih =>
    simp only [List.contains_cons, Bool.or_eq_false_iff]
    constructor
    · simpa using fun he => (h a (by simp) he.symm)
    · exact ih (fun b hb => h b (by simp [hb]))

theorem digit_or_dot_not_trimws {c : Char} (h : c.isDigit = true ∨ c = '.') :
    goTrimWS c = false := by
  rcases h with h | rfl
  · by_contra hw
    rw [Bool.not_eq_false] at hw
    simp only [goTrimWS, Bool.or_eq_true, decide_eq_true_eq] at hw
    have hmem : c ∈ [' ', '\t', '\n', Char.ofNat 11, Char.ofNat 12, '\r'] := by
      simp only [List.mem_cons, List.not_mem_nil, or_false]
      tauto
    fin_cases hmem <;> exact absurd h (by decide)
  · decide

theorem digit_or_dot_not_ws {c : Char} (h : c.isDigit = true ∨ c = '.') :
    goWS c = false := by
  rcases h with h | rfl
  · by_contra hw
    rw [Bool.not_eq_false] at hw
    simp only [goWS, Bool.or_eq_true, decide_eq_true_eq] at hw
    have hmem : c ∈ [' ', '\t', '\n', Char.ofNat 12, '\r'] := by
      simp only [List.mem_cons, List.not_mem_nil, or_false]
      tauto
    fin_cases hmem <;> exact absurd h (by decide)
  · decide

theorem validateVersion_plainDotted {s : String} (h : plainDottedNumeric s = true) :
    validateVersion s = .ok () := by
  obtain ⟨⟨d, t, hdt, hdig⟩, hclass⟩ := plainDotted_spec h
  have hnotws : ∀ a ∈ s.data, goTrimWS a = false :=
    fun a ha => digit_or_dot_not_trimws (hclass a ha)
  have hnogws : ∀ a ∈ s.data, goWS a = false :=
    fun a ha => digit_or_dot_not_ws (hclass a ha)
  have hlat : s ≠ "latest" := by
    rintro rfl
    rw [show ("latest" : String).data = ['l', 'a', 't', 'e', 's', 't'] from rfl] at hdt
    simp only [List.cons.injEq] at hdt
    obtain ⟨rfl, -⟩ := hdt
    exact absurd hdig (by decide)
  have hcmp : comparatorRangeMatch s.data = false := by
    rw [hdt]
    exact comparatorRange_digitHead hdig (hdt ▸ hnogws)
  have hhyp : hyphenRangeMatch s.data = false := hyphenRange_noWS hnogws
  have hor : orRangeMatch s.data = false := by
    refine orRange_noPipe (fun hmem => ?_)
    rcases hclass '|' hmem with h2 | h2 <;> exact absurd h2 (by decide)
  have hx : s.data.contains 'x' = false :=
    list_contains_false (fun a ha => by
      rcases hclass a ha with h2 | rfl
      · rintro rfl; exact absurd h2 (by decide)
      · decide)
  have hX : s.data.contains 'X' = false :=
    list_contains_false (fun a ha => by
      rcases hclass a ha with h2 | rfl
      · rintro rfl; exact absurd h2 (by decide)
      · decide)
  have hstar : s.data.contains '*' = false :=
    list_contains_false (fun a ha => by
      rcases hclass a ha with h2 | rfl
      · rintro rfl; exact absurd h2 (by decide)
      · decide)
  have hrange : looksLikeVersionRange s = false := by
    unfold looksLikeVersionRange
    rw [trimSpace_eq_self hnotws]
    have hne : s.data.isEmpty = false := by rw [hdt]; rfl
    simp only [hne, hcmp, hhyp, hor, hx, hX, hstar, Bool.false_eq_true, if_false,
      Bool.or_self, ite_self]
  simp [validateVersion, hlat, hrange]

/-! ## Claims -/

/-- C2: the namespace-ownership check (`validateRemoteURLMatchesNamespace`)
accepts, for namespace `com.example`, a URL with hostname `example.com` or any
hostname ending in `.example.com`; rejects hostname `evil.com` with a
namespace-mismatch error; and accepts `localhost`, `*.localhost` and
`127.0.0.1` URLs for every namespace, without any domain comparison. -/
theorem claimC2_namespace_ownership_check :
    validateRemoteURLMatchesNamespace "https://example.com/mcp" "com.example/server"
      = .ok ()
  ∧ validateRemoteURLMatchesNamespace "https://api.example.com/mcp" "com.example/server"
      = .ok ()
  ∧ (∀ h : String, strEnds h ".example.com" = true →
      isValidHostForDomain h "example.com" = true)
  ∧ validateRemoteURLMatchesNamespace "https://evil.com/mcp" "com.example/server"
      = .error (.namespaceMismatch "evil.com" "example.com")
  ∧ (∀ ns : String,
      validateRemoteURLMatchesNamespace "https://localhost:8080/mcp" ns = .ok ()
    ∧ validateRemoteURLMatchesNamespace "https://dev.localhost/mcp" ns = .ok ()
    ∧ validateRemoteURLMatchesNamespace "https://127.0.0.1/mcp" ns = .ok ()) := by
  refine ⟨by decide, by decide, ?_, by decide, ?_⟩
  · intro h hEnds
    have heq : ("." ++ "example.com" : String) = ".example.com" := rfl
    simp only [isValidHostForDomain, heq, hEnds, Bool.or_true]
  · intro ns
    exact ⟨rfl, rfl, rfl⟩

/-- C2 witness: the subdomain clause applied at `api.example.com`, and the
localhost clause applied at a namespace the URL does not match. -/
theorem claimC2_witness :
    strEnds "api.example.com" ".example.com" = true
  ∧ isValidHostForDomain "api.example.com" "example.com" = true
  ∧ validateRemoteURLMatchesNamespace "https://localhost:8080/mcp" "org.other/x" = .ok () :=
  ⟨by decide,
   claimC2_namespace_ownership_check.2.2.1 "api.example.com" (by decide),
   (claimC2_namespace_ownership_check.2.2.2.2 "org.other/x").1⟩

/-- C3: the page-fetch loop of `fetchFromRegistryAPI` has no guard against a
catalog server that never terminates pagination — against a server whose every
response carries a non-empty `metadata.nextCursor`, the loop never completes,
for any amount of fuel. -/
theorem claimC3_pagination_never_terminates :
    ∀ fuel : Nat,
      fetchFromRegistryAPI nonTerminatingCatalog
        "https://registry.example.com/v0/servers" fuel = .error .ranOut :=
  fun fuel => fetchPagesLoop_nonTerminating fuel ""

/-- C3 witness: the non-termination theorem applied at concrete fuel. -/
theorem claimC3_witness :
    fetchFromRegistryAPI nonTerminatingCatalog
      "https://registry.example.com/v0/servers" 100 = .error .ranOut :=
  claimC3_pagination_never_terminates 100

/-- C7: importing the three-page catalog (cursors `A`, `B`, `""`) issues
exactly three page fetches, with each cursor echoed verbatim into the request
URL, accumulates the manifests in page order, and stops at the page whose
cursor is empty; in general the loop stops exactly at the first page whose
metadata is absent or whose cursor is empty. -/
theorem claimC7_catalog_pagination :
    fetchFromRegistryAPI threePageCatalog "https://registry.example.com/v0/servers" 10
      = .ok ([pageManifest "one", pageManifest "two", pageManifest "three",
              pageManifest "four"],
             ["https://registry.example.com/v0/servers",
              "https://registry.example.com/v0/servers?cursor=A",
              "https://registry.example.com/v0/servers?cursor=B"])
  ∧ (∀ (fetch : String → Except String RegistryPage) (baseURL : String)
       (fuel : Nat) (cursor : String) (page : RegistryPage),
       fetch (buildPageURL baseURL cursor) = .ok page →
       (page.metadata = none ∨ ∃ md, page.metadata = some md ∧ md.nextCursor = "") →
       fetchPagesLoop fetch baseURL (fuel + 1) cursor =
         .ok (page.servers.map ServerResponse.server, [buildPageURL baseURL cursor])) := by
  constructor
  · rfl
  · intro fetch baseURL fuel cursor page hfetch hstop
    simp only [fetchPagesLoop, hfetch]
    rcases hstop with hnone | ⟨md, hsome, hempty⟩
    · rw [hnone]
    · rw [hsome]
      simp [hempty]

/-- C7 witness: the stop rule applied to the third catalog page. -/
theorem claimC7_witness :
    fetchPagesLoop threePageCatalog "https://registry.example.com/v0/servers" 4 "B"
      = .ok ([pageManifest "four"],
             ["https://registry.example.com/v0/servers?cursor=B"]) :=
  claimC7_catalog_pagination.2 threePageCatalog "https://registry.example.com/v0/servers"
    3 "B" { servers := [⟨pageManifest "four"⟩], metadata := some { nextCursor := "" } }
    (by rfl) (Or.inr ⟨{ nextCursor := "" }, rfl, rfl⟩)

/-- C9: the schema gate of `ValidateServerJSON` rejects an empty `schema`
field, rejects a non-empty schema containing no supported version identifier
as a substring, and accepts any schema string containing a supported version
identifier as a substring. -/
theorem claimC9_schema_gate :
    (∀ m : ServerJSON, m.schema = "" →
      ValidateServerJSON m = .error .schemaMissing)
  ∧ (∀ m : ServerJSON, m.schema ≠ "" → IsSupportedSchemaVersion m.schema = false →
      ValidateServerJSON m = .error (.schemaUnsupported m.schema))
  ∧ (∀ (s v : String), v ∈ SupportedSchemaVersions → strContainsSub s v = true →
      IsSupportedSchemaVersion s = true)
  ∧ (∀ s : String, s ≠ "" → IsSupportedSchemaVersion s = true →
      validateSchemaField s = .ok ()) := by
  refine ⟨?_, ?_, ?_, ?_⟩
  · intro m h
    simp [ValidateServerJSON, validateSchemaField, h, seqE]
  · intro m h hsup
    simp [ValidateServerJSON, validateSchemaField, h, hsup, seqE]
  · intro s v hv hsub
    have hv2 : v = CurrentSchemaVersion ∨ v = LegacySchemaVersion20250929 := by
      simpa [SupportedSchemaVersions] using hv
    have hne : s ≠ "" := by
      rintro rfl
      rcases hv2 with rfl | rfl
      · exact absurd hsub (by decide)
      · exact absurd hsub (by decide)
    simp only [IsSupportedSchemaVersion, if_neg hne, SupportedSchemaVersions,
      List.any_cons, List.any_nil, Bool.or_false, Bool.or_eq_true]
    rcases hv2 with rfl | rfl
    · exact Or.inl hsub
    · exact Or.inr hsub
  · intro s hne hsup
    simp [validateSchemaField, hne, hsup]

/-- C9 witness: the gate evaluated at an empty schema, an unsupported schema,
and a full-URL schema identifier containing a supported version. -/
theorem claimC9_witness :
    ValidateServerJSON { exampleManifest with schema := "" } = .error .schemaMissing
  ∧ ValidateServerJSON { exampleManifest with schema := "bogus" } =
      .error (.schemaUnsupported "bogus")
  ∧ IsSupportedSchemaVersion
      "https://static.modelcontextprotocol.io/schemas/2025-12-11/server.json" = true
  ∧ validateSchemaField CurrentSchemaVersion = .ok () :=
  ⟨claimC9_schema_gate.1 _ rfl,
   claimC9_schema_gate.2.1 _ (by decide) (by decide),
   claimC9_schema_gate.2.2.1 _ CurrentSchemaVersion (by simp [SupportedSchemaVersions])
     (by decide),
   claimC9_schema_gate.2.2.2 _ (by decide) (by decide)⟩

/-- C10: `validateVersion` accepts the empty string, and a manifest accepted
by `ValidateServerJSON` remains accepted when its top-level version field is
replaced by the empty string — no step of the validation sequence rejects an
empty version. -/
theorem claimC10_empty_version :
    validateVersion "" = .ok ()
  ∧ ∀ m : ServerJSON, ValidateServerJSON m = .ok () →
      ValidateServerJSON { m with version := "" } = .ok () := by
  refine ⟨by decide, ?_⟩
  intro m h
  have key : ∀ a : ServerJSON, ValidateServerJSON a =
      seqE (validateSchemaField a.schema)
      (seqE (discardE (parseServerName a))
      (seqE (validateVersion a.version)
      (seqE (validateRepository a.repository)
      (seqE (validateWebsiteURL a.websiteUrl)
      (seqE (validateTitle a.title)
      (seqE (validateIcons a.icons)
      (seqE (firstErr validatePackageField a.packages)
      (seqE (firstErr validateRemoteTransport a.remotes)
      (seqE (validateRemoteNamespaceMatch a)
      (validateWebsiteURLNamespaceMatch a)))))))))) := fun _ => rfl
  rw [key] at h
  rw [key]
  rw [show parseServerName { m with version := "" } = parseServerName m from rfl,
      show validateRemoteNamespaceMatch { m with version := "" } =
        validateRemoteNamespaceMatch m from rfl,
      show validateWebsiteURLNamespaceMatch { m with version := "" } =
        validateWebsiteURLNamespaceMatch m from rfl,
      show ({ m with version := "" } : ServerJSON).schema = m.schema from rfl,
      show ({ m with version := "" } : ServerJSON).version = "" from rfl,
      show ({ m with version := "" } : ServerJSON).repository = m.repository from rfl,
      show ({ m with version := "" } : ServerJSON).websiteUrl = m.websiteUrl from rfl,
      show ({ m with version := "" } : ServerJSON).title = m.title from rfl,
      show ({ m with version := "" } : ServerJSON).icons = m.icons from rfl,
      show ({ m with version := "" } : ServerJSON).packages = m.packages from rfl,
      show ({ m with version := "" } : ServerJSON).remotes = m.remotes from rfl]
  simp only [seqE_ok] at h ⊢
  obtain ⟨h1, h2, _, h4, h5, h6, h7, h8, h9, h10, h11⟩ := h
  exact ⟨h1, h2, by decide, h4, h5, h6, h7, h8, h9, h10, h11⟩

/-- C10 witness: the preservation applied to a concrete accepted manifest. -/
theorem claimC10_witness :
    ValidateServerJSON { exampleManifest with version := "" } = .ok () :=
  claimC10_empty_version.2 exampleManifest (by decide)

/-- C8: `ValidatePublishRequest` runs the publisher-extension 4096-byte size
gate before `ValidateManifest`: an oversized serialized blob yields the
extension-too-large error for every manifest and configuration — also when
the manifest is otherwise invalid — and a blob of at most 4096 serialized
bytes passes the gate. -/
theorem claimC8_extension_size_gate :
    (∀ (vp : Package → String → Except ValidationError Unit) (req : ServerJSON)
       (cfg : Config) (meta : ServerMeta) (blob : Json),
       req.meta = some meta → meta.publisherProvided = some blob →
       utf8Len blob.serialize > 4096 →
       ValidatePublishRequest vp req cfg =
         .error (.extensionTooLarge (utf8Len blob.serialize)))
  ∧ (∀ (req : ServerJSON) (meta : ServerMeta) (blob : Json),
       req.meta = some meta → meta.publisherProvided = some blob →
       utf8Len blob.serialize ≤ 4096 →
       validatePublisherExtensions req = .ok ())
  ∧ ValidateServerJSON oversizedExtensionManifest = .error .nameRequired := by
  refine ⟨?_, ?_, ?_⟩
  · intro vp req cfg meta blob hmeta hblob hsize
    have hext : validatePublisherExtensions req =
        .error (.extensionTooLarge (utf8Len blob.serialize)) := by
      simp only [validatePublisherExtensions, hmeta, hblob]
      rw [if_pos (by simpa [maxExtensionSize] using hsize)]
    simp [ValidatePublishRequest, hext, seqE]
  · intro req meta blob hmeta hblob hsize
    simp only [validatePublisherExtensions, hmeta, hblob]
    rw [if_neg (by simp [maxExtensionSize]; omega)]
  · simp [ValidateServerJSON, validateSchemaField, oversizedExtensionManifest,
      exampleManifest, seqE, parseServerName, discardE,
      IsSupportedSchemaVersion, SupportedSchemaVersions, CurrentSchemaVersion,
      strContainsSub, lSub, strLeads]

/-- C8 witness: the size gate applied to the oversized blob carried by an
otherwise-invalid manifest — the extension error is returned, not the
manifest's name error. -/
theorem claimC8_witness :
    ValidatePublishRequest acceptAllPackages oversizedExtensionManifest ⟨true⟩ =
      .error (.extensionTooLarge (utf8Len oversizedBlob.serialize)) :=
  claimC8_extension_size_gate.1 acceptAllPackages oversizedExtensionManifest ⟨true⟩
    { publisherProvided := some oversizedBlob } oversizedBlob rfl rfl
    (by rw [utf8Len_oversizedBlob]; norm_num)

/-- C4 counterexample: the undefined-placeholder failure and the
malformed-URL failure of `validatePackageTransport` are not distinct error
kinds — both error sites wrap the same `ErrInvalidRemoteURL` sentinel; they
differ only in their message, the undefined-placeholder one listing the
available variables. -/
theorem claimC4_counterexample :
    validatePackageTransport ⟨transportTypeStreamableHTTP, templatedPortURL⟩ [] =
      .error (.transportUndefinedTemplateVars templatedPortURL [])
  ∧ validatePackageTransport ⟨transportTypeStreamableHTTP, "not a url"⟩ [] =
      .error (.transportInvalidURL "not a url")
  ∧ sentinelOf (.transportUndefinedTemplateVars templatedPortURL []) =
      some .invalidRemoteURL
  ∧ sentinelOf (.transportInvalidURL "not a url") = some .invalidRemoteURL := by
  refine ⟨by decide, by decide, rfl, rfl⟩

/-- C4 (amended): package-scoped transport validation — a stdio transport
with non-empty url fails; a streamable-http or sse transport with empty url
fails; a streamable-http transport with the templated `port` URL passes iff
`port` is among the available variables, and otherwise fails with the
undefined-template-variable error, whose payload lists the available
variables but which wraps the same `ErrInvalidRemoteURL` sentinel as the
malformed-URL error; a malformed non-templated URL fails with the plain
invalid-remote-URL error; any other transport type fails as unsupported. -/
theorem claimC4_package_transport :
    (∀ (vars : List String) (url : String), url ≠ "" →
      validatePackageTransport ⟨transportTypeStdio, url⟩ vars =
        .error (.transportURLMustBeEmpty transportTypeStdio url))
  ∧ (∀ vars : List String,
      validatePackageTransport ⟨transportTypeStreamableHTTP, ""⟩ vars =
        .error (.transportURLRequired transportTypeStreamableHTTP)
    ∧ validatePackageTransport ⟨transportTypeSSE, ""⟩ vars =
        .error (.transportURLRequired transportTypeSSE))
  ∧ (∀ vars : List String,
      (vars.contains "port" = true →
        validatePackageTransport ⟨transportTypeStreamableHTTP, templatedPortURL⟩ vars
          = .ok ())
    ∧ (vars.contains "port" = false →
        validatePackageTransport ⟨transportTypeStreamableHTTP, templatedPortURL⟩ vars
          = .error (.transportUndefinedTemplateVars templatedPortURL vars)))
  ∧ (∀ vars : List String,
      validatePackageTransport ⟨transportTypeStreamableHTTP, "not a url"⟩ vars =
        .error (.transportInvalidURL "not a url"))
  ∧ (∀ (ttype : String) (vars : List String) (url : String),
      ttype ≠ transportTypeStdio → ttype ≠ transportTypeStreamableHTTP →
      ttype ≠ transportTypeSSE →
      validatePackageTransport ⟨ttype, url⟩ vars =
        .error (.unsupportedTransportType ttype))
  ∧ sentinelOf (.transportUndefinedTemplateVars templatedPortURL []) =
      sentinelOf (.transportInvalidURL "not a url") := by
  have hex : extractTemplateVariables templatedPortURL = ["port"] := by decide
  have hbv : isBasicValidURL (substituteTemplates templatedPortURL) = true := by decide
  refine ⟨?_, ?_, ?_, ?_, ?_, rfl⟩
  · intro vars url h
    simp [validatePackageTransport, h]
  · intro vars
    constructor <;> simp [validatePackageTransport, transportTypeStdio,
      transportTypeStreamableHTTP, transportTypeSSE]
  · intro vars
    have hurl : templatedPortURL ≠ "" := by decide
    constructor
    · intro hc
      have hmem : "port" ∈ vars := by simpa using hc
      simp [validatePackageTransport, transportTypeStdio, transportTypeStreamableHTTP,
        IsValidTemplatedURL, hex, hbv, hurl, hc, hmem]
    · intro hc
      have hmem : "port" ∉ vars := by simpa using hc
      simp [validatePackageTransport, transportTypeStdio, transportTypeStreamableHTTP,
        IsValidTemplatedURL, hex, hbv, hurl, hc, hmem]
  · intro vars
    have hex2 : extractTemplateVariables "not a url" = [] := by decide
    have hbv2 : isBasicValidURL (substituteTemplates "not a url") = false := by decide
    simp [validatePackageTransport, transportTypeStdio, transportTypeStreamableHTTP,
      IsValidTemplatedURL, hex2, hbv2]
  · intro ttype vars url h1 h2 h3
    simp [validatePackageTransport, h1, h2, h3]

/-- C4 witness: the amended theorem applied at concrete inputs on both sides
of the availability of `port`. -/
theorem claimC4_witness :
    validatePackageTransport ⟨transportTypeStdio, "https://x.example"⟩ [] =
      .error (.transportURLMustBeEmpty transportTypeStdio "https://x.example")
  ∧ validatePackageTransport ⟨transportTypeStreamableHTTP, templatedPortURL⟩ ["port"]
      = .ok ()
  ∧ validatePackageTransport ⟨transportTypeStreamableHTTP, templatedPortURL⟩ ["host"]
      = .error (.transportUndefinedTemplateVars templatedPortURL ["host"])
  ∧ validatePackageTransport ⟨"websocket", "wss://x.example"⟩ [] =
      .error (.unsupportedTransportType "websocket") :=
  ⟨claimC4_package_transport.1 [] "https://x.example" (by decide),
   (claimC4_package_transport.2.2.1 ["port"]).1 (by decide),
   (claimC4_package_transport.2.2.1 ["host"]).2 (by decide),
   claimC4_package_transport.2.2.2.2.1 "websocket" [] "wss://x.example"
     (by decide) (by decide) (by decide)⟩

/-- C6: the import pipeline succeeds iff there were zero creation failures;
records failing validation are excluded before creation and recorded as
invalid; every valid record is attempted, a creation failure not aborting the
rest; and the 5-manifest batch with 2 validation failures and 1 creation
failure yields 2 created, 2 invalid, 1 create-failed and an overall failure
reporting the count and the per-record names. -/
theorem claimC6_import_pipeline :
    (∀ (create : ServerJSON → Option String) (decoded : List ServerJSON),
      (importFromSeed create decoded).importError = none ↔
        (importFromSeed create decoded).failedCreations = [])
  ∧ (∀ decoded : List ServerJSON,
      (filterValidServers decoded).1 =
        decoded.filter (fun s => ValidateServerJSON s = .ok ())
    ∧ (filterValidServers decoded).2.1 =
        (decoded.filter (fun s => ¬ ValidateServerJSON s = .ok ())).map ServerJSON.name)
  ∧ (∀ (create : ServerJSON → Option String) (valid : List ServerJSON),
      (createAllServers create valid).1.length +
        (createAllServers create valid).2.length = valid.length)
  ∧ importFromSeed createOracle5 seedBatch5 =
      { invalidServers := ["", "com.example/delta"]
        successfullyCreated := ["com.example/alpha", "com.example/beta"]
        failedCreations := ["com.example/gamma: db down"]
        importError := some "failed to import 1 servers" } := by
  refine ⟨?_, ?_, ?_, by decide⟩
  · intro create decoded
    unfold importFromSeed
    cases hf : (createAllServers create (filterValidServers decoded).1).2 with
    | nil => simp [hf]
    | cons a as => simp [hf]
  · intro decoded
    induction decoded with
    | nil => exact ⟨rfl, rfl⟩
    | cons s rest ih =>
      obtain ⟨ih1, ih2⟩ := ih
      cases hv : ValidateServerJSON s with
      | error e =>
        constructor
        · simp only [filterValidServers, hv, List.filter_cons]
          rw [if_neg (by simp [hv])]
          exact ih1
        · simp only [filterValidServers, hv, List.filter_cons]
          rw [if_pos (by simp [hv])]
          simp [ih2]
      | ok u =>
        cases u
        constructor
        · simp only [filterValidServers, hv, List.filter_cons]
          rw [if_pos (by simp [hv])]
          simp [ih1]
        · simp only [filterValidServers, hv, List.filter_cons]
          rw [if_neg (by simp [hv])]
          exact ih2
  · intro create valid
    induction valid with
    | nil => rfl
    | cons s rest ih =>
      cases hc : create s with
      | none => simp [createAllServers, hc]; omega
      | some e => simp [createAllServers, hc]; omega

/-- C6 witness: the success-iff-no-failures rule applied to the concrete
batch, whose one creation failure makes the overall import fail. -/
theorem claimC6_witness :
    ¬ (importFromSeed createOracle5 seedBatch5).importError = none :=
  fun h =>
    by simpa [(claimC6_import_pipeline.1 createOracle5 seedBatch5).mp h] using
      congrArg ImportResult.failedCreations claimC6_import_pipeline.2.2.2

/-- C1 counterexample: a manifest accepted by `ValidateServerJSON` whose
icon's `src` hostname (`evil.com`) neither equals nor is a subdomain of the
namespace's publisher domain (`example.com`) and is not locally exempt —
icon URLs undergo no namespace-ownership check. -/
theorem claimC1_counterexample :
    ValidateServerJSON foreignIconManifest = .ok ()
  ∧ foreignIconManifest.name = "com.example/alpha"
  ∧ foreignIconManifest.icons = [⟨"https://evil.com/icon.png"⟩]
  ∧ hostnameOf "https://evil.com/icon.png" = some "evil.com"
  ∧ isLocalExemptHost "evil.com" = false
  ∧ isValidHostForDomain "evil.com"
      (extractPublisherDomainFromNamespace foreignIconManifest.name) = false := by
  refine ⟨by decide, rfl, rfl, by decide, by decide, by decide⟩

/-- C1 (amended): for every manifest accepted by `ValidateServerJSON`, every
remote transport URL and a non-empty `websiteUrl` parse to a non-empty
hostname that is locally exempt (`localhost`, `*.localhost`, `127.0.0.1`) or
equals / is a subdomain of the domain obtained by reversing the namespace
labels of the manifest's name; icon `src` URLs are exempt from this
ownership check (they are only required to be absolute HTTPS URLs). -/
theorem claimC1_accepted_url_ownership :
    ∀ m : ServerJSON, ValidateServerJSON m = .ok () →
      (∀ r ∈ m.remotes, ∃ g : GoURL, urlParse r.url = some g ∧ g.hostname ≠ "" ∧
        (isLocalExemptHost g.hostname = true ∨
          isValidHostForDomain g.hostname
            (extractPublisherDomainFromNamespace m.name) = true))
    ∧ (m.websiteUrl ≠ "" →
        ∃ g : GoURL, urlParse m.websiteUrl = some g ∧ g.hostname ≠ "" ∧
          (isLocalExemptHost g.hostname = true ∨
            isValidHostForDomain g.hostname
              (extractPublisherDomainFromNamespace m.name) = true)) := by
  intro m h
  have key : ValidateServerJSON m =
      seqE (validateSchemaField m.schema)
      (seqE (discardE (parseServerName m))
      (seqE (validateVersion m.version)
      (seqE (validateRepository m.repository)
      (seqE (validateWebsiteURL m.websiteUrl)
      (seqE (validateTitle m.title)
      (seqE (validateIcons m.icons)
      (seqE (firstErr validatePackageField m.packages)
      (seqE (firstErr validateRemoteTransport m.remotes)
      (seqE (validateRemoteNamespaceMatch m)
      (validateWebsiteURLNamespaceMatch m)))))))))) := rfl
  rw [key] at h
  simp only [seqE_ok] at h
  obtain ⟨-, -, -, -, -, -, -, -, -, h10, h11⟩ := h
  constructor
  · intro r hr
    have := firstErr_ok h10 r hr
    exact remoteURLMatch_ok (wrapE_ok.mp this)
  · intro hw
    unfold validateWebsiteURLNamespaceMatch at h11
    rw [if_neg hw] at h11
    exact remoteURLMatch_ok (wrapE_ok.mp h11)

/-- C5: version validation accepts every plain dotted numeric string matching
`^\d+(\.\d+){0,3}$`, and rejects `latest` (reserved), comparator-prefixed
versions, hyphenated two-version ranges, `||`-joined OR-ranges, and dotted
versions containing a wildcard segment. -/
theorem claimC5_version_validation :
    (∀ s : String, plainDottedNumeric s = true → validateVersion s = .ok ())
  ∧ validateVersion "latest" = .error .reservedVersion
  ∧ validateVersion "^1.2.3" = .error (.versionLooksLikeRange "^1.2.3")
  ∧ validateVersion "~1.2.3" = .error (.versionLooksLikeRange "~1.2.3")
  ∧ validateVersion ">=1.0.0" = .error (.versionLooksLikeRange ">=1.0.0")
  ∧ validateVersion "1 - 2" = .error (.versionLooksLikeRange "1 - 2")
  ∧ validateVersion "1.2 || 1.3" = .error (.versionLooksLikeRange "1.2 || 1.3")
  ∧ validateVersion "1.2.*" = .error (.versionLooksLikeRange "1.2.*")
  ∧ validateVersion "1.x" = .error (.versionLooksLikeRange "1.x") :=
  ⟨fun _ h => validateVersion_plainDotted h, by decide, by decide, by decide,
   by decide, by decide, by decide, by decide, by decide⟩

/-- C5 witness: the acceptance clause applied to the plain version `1.2.3`. -/
theorem claimC5_witness : validateVersion "1.2.3" = .ok () :=
  claimC5_version_validation.1 "1.2.3" (by decide)

/-- C1 witness: the amended theorem applied to a concrete accepted manifest
carrying a remote on the publisher domain and a website on a subdomain. -/
theorem claimC1_witness :
    (∃ g : GoURL, urlParse "https://example.com/mcp" = some g ∧ g.hostname ≠ "" ∧
      (isLocalExemptHost g.hostname = true ∨
        isValidHostForDomain g.hostname
          (extractPublisherDomainFromNamespace remoteWebsiteManifest.name) = true))
  ∧ (∃ g : GoURL, urlParse "https://api.example.com" = some g ∧ g.hostname ≠ "" ∧
      (isLocalExemptHost g.hostname = true ∨
        isValidHostForDomain g.hostname
          (extractPublisherDomainFromNamespace remoteWebsiteManifest.name) = true)) :=
  ⟨(claimC1_accepted_url_ownership remoteWebsiteManifest (by decide)).1
      ⟨"streamable-http", "https://example.com/mcp"⟩ (by decide),
   (claimC1_accepted_url_ownership remoteWebsiteManifest (by decide)).2 (by decide)⟩

end Registry

